import Mathlib

/-
Verification of the snapshot-testing engine described in spec.md against the
visible source (src/src/macros.rs).  The source file contains the macro layer
(assertion macro expansions); the collaborators those macros invoke
(selector parser, redaction engine, serializer, snapshot store) are not part
of the visible source, so they are modelled from the spec where a claim
depends on them.  Each such definition is marked `Modelled from the spec:`.
-/

namespace Insta

/-- Structural, format-agnostic representation of a captured value (spec §3):
a tagged variant over nil, bool, integer, float, string, bytes, ordered
sequences, insertion-ordered maps, structs with named ordered fields, and
enums with an optional payload.  Floats are carried as their decimal literal
text so that equality of trees stays decidable; nothing in the engine
computes with float values. -/
inductive Content where
  | nil
  | bool (b : Bool)
  | integer (i : Int)
  | float (lit : String)
  | str (s : String)
  | bytes (bs : List Nat)
  | seq (items : List Content)
  | map (entries : List (Content × Content))
  | struct (name : String) (fields : List (String × Content))
  | enum (name : String) (variant : String) (payload : Option Content)
deriving Repr

/-- One segment of a selector path (spec §3): exact key, exact index,
single-level wildcard, or recursive wildcard. -/
inductive Segment where
  | key (s : String)
  | index (n : Nat)
  | wildcard
  | recursiveWildcard
deriving DecidableEq, Repr

/-- A selector is an ordered sequence of segments (spec §3). -/
abbrev Selector := List Segment

/-- Selector parse error carrying position and reason (spec §4.2, §7). -/
structure ParseError where
  position : Nat
  reason : String
deriving DecidableEq, Repr

/-- Scan up to the closing quote of a quoted segment; none if the quote is
never terminated. -/
def takeUntilQuote : List Char → Option (List Char × List Char)
  | [] => none
  | c :: rest =>
    if c = '"' then some ([], rest)
    else
      match takeUntilQuote rest with
      | none => none
      | some (tok, r) => some (c :: tok, r)

/-- Scan an unquoted segment up to the next separator dot. -/
def takeUntilDot : List Char → List Char × List Char
  | [] => ([], [])
  | c :: rest =>
    if c = '.' then ([], c :: rest)
    else
      let (tok, r) := takeUntilDot rest
      (c :: tok, r)

/-- Characters allowed in an unquoted identifier segment. -/
def isIdentChar (c : Char) : Bool :=
  c.isAlphanum || c = '_' || c = '-'

/-- Digits of an integer segment to the index value. -/
def digitsToNat (cs : List Char) : Nat :=
  cs.foldl (fun n c => n * 10 + (c.toNat - 48)) 0

/-- Classify an unquoted segment token (spec §4.2 grammar):
identifier, integer, wildcard, or recursive wildcard. -/
def classifySegment (tok : List Char) (pos : Nat) : Except ParseError Segment :=
  match tok with
  | [] => .error ⟨pos, "empty segment"⟩
  | ['*'] => .ok .wildcard
  | ['*', '*'] => .ok .recursiveWildcard
  | c :: _ =>
    if c.isDigit then
      if tok.all Char.isDigit then .ok (.index (digitsToNat tok))
      else .error ⟨pos, "invalid integer"⟩
    else if tok.all isIdentChar then .ok (.key (String.mk tok))
    else .error ⟨pos, "invalid segment"⟩

/-- Modelled from the spec: the selector parser body (spec §4.2); only its
caller (the macro expansion) is part of the visible source.  Parses
dot-separated segments; quoted strings allow keys containing separators.
Fails on empty segment, unterminated quote, invalid integer, or trailing
separator.  The fuel argument only serves Lean's termination checker: every
step consumes at least one input character, so `length + 1` fuel never runs
out. -/
def parseAux : Nat → List Char → Nat → Except ParseError (List Segment)
  | 0, _, pos => .error ⟨pos, "empty segment"⟩
  | fuel + 1, cs, pos =>
    match cs with
    | [] => .error ⟨pos, "empty segment"⟩
    | '"' :: rest =>
      match takeUntilQuote rest with
      | none => .error ⟨pos, "unterminated quote"⟩
      | some (tok, r) =>
        let seg := Segment.key (String.mk tok)
        match r with
        | [] => .ok [seg]
        | c :: r2 =>
          if c = '.' then
            if r2.isEmpty then .error ⟨pos + tok.length + 2, "trailing separator"⟩
            else
              match parseAux fuel r2 (pos + tok.length + 3) with
              | .ok segs => .ok (seg :: segs)
              | .error e => .error e
          else .error ⟨pos + tok.length + 2, "invalid segment"⟩
    | _ =>
      let (tok, r) := takeUntilDot cs
      match classifySegment tok pos with
      | .error e => .error e
      | .ok seg =>
        match r with
        | [] => .ok [seg]
        | _ :: r2 =>
          if r2.isEmpty then .error ⟨pos + tok.length, "trailing separator"⟩
          else
            match parseAux fuel r2 (pos + tok.length + 1) with
            | .ok segs => .ok (seg :: segs)
            | .error e => .error e

/-- Modelled from the spec: `Selector::parse` (spec §4.2).  A leading dot is
optional and anchors at the tree root; parsing is total and pure, with no
side effects and no I/O. -/
def Selector.parse (s : String) : Except ParseError Selector :=
  match s.data with
  | '.' :: rest => parseAux (rest.length + 1) rest 1
  | cs => parseAux (cs.length + 1) cs 0

/-- One step of a concrete node path inside a Content tree: a map/struct key
or a sequence index. -/
inductive PathStep where
  | key (s : String)
  | index (n : Nat)
deriving DecidableEq, Repr

/-- Modelled from the spec: selector matching against a concrete node path
(spec §4.3).  Key/Index require exact matches, Wildcard consumes exactly one
step, RecursiveWildcard matches the current node itself and independently
any suffix of the remaining path.  The fuel argument only serves Lean's
termination checker: each step shortens selector-plus-path, so
`lengths + 1` fuel never runs out. -/
def selMatchFuel : Nat → List Segment → List PathStep → Bool
  | 0, _, _ => false
  | _ + 1, [], p => p.isEmpty
  | fuel + 1, Segment.key k :: rest, p =>
    match p with
    | PathStep.key k2 :: p2 => k == k2 && selMatchFuel fuel rest p2
    | _ => false
  | fuel + 1, Segment.index n :: rest, p =>
    match p with
    | PathStep.index m :: p2 => n == m && selMatchFuel fuel rest p2
    | _ => false
  | fuel + 1, Segment.wildcard :: rest, p =>
    match p with
    | _ :: p2 => selMatchFuel fuel rest p2
    | [] => false
  | fuel + 1, Segment.recursiveWildcard :: rest, p =>
    selMatchFuel fuel rest p ||
      (match p with
       | [] => false
       | _ :: p2 => selMatchFuel fuel (Segment.recursiveWildcard :: rest) p2)

/-- Whether a selector resolves to the node at path `p` (spec §4.3). -/
def selMatch (sel : Selector) (p : List PathStep) : Bool :=
  selMatchFuel (sel.length + p.length + 1) sel p

/-- A redaction replacement is a primitive Content value — bool, integer,
float, or string (spec §3: Redaction Rule). -/
inductive Replacement where
  | bool (b : Bool)
  | integer (i : Int)
  | float (lit : String)
  | str (s : String)
deriving DecidableEq, Repr

/-- The primitive Content a replacement stands for. -/
def Replacement.toContent : Replacement → Content
  | .bool b => .bool b
  | .integer i => .integer i
  | .float lit => .float lit
  | .str s => .str s

/-- Whether a Content node is a primitive (bool, integer, float, string). -/
def isPrimitive : Content → Bool
  | .bool _ => true
  | .integer _ => true
  | .float _ => true
  | .str _ => true
  | _ => false

/-- A redaction rule: selector plus primitive replacement, kept in
declaration order (spec §3). -/
abbrev Rule := Selector × Replacement

/-- Modelled from the spec: the replacement of the last rule, in declaration
order, whose selector matches the node at path `p` (spec §4.3:
last-write-wins per node). -/
def lastMatch (rules : List Rule) (p : List PathStep) : Option Replacement :=
  rules.foldl (fun acc r => if selMatch r.1 p then some r.2 else acc) none

/-- The string a map key contributes to a node path; selectors address map
entries by key string (spec §4.3). -/
def keyName : Content → String
  | .str s => s
  | .bool b => toString b
  | .integer i => toString i
  | _ => ""

mutual

/-- Walk into the children of an unmatched node, extending the path one
step per child; primitives are returned unchanged. -/
def applyChildren (rules : List Rule) (p : List PathStep) :
    Content → Content
  | .seq items => .seq (applySeq rules p 0 items)
  | .map entries => .map (applyEntries rules p entries)
  | .struct n fields => .struct n (applyFields rules p fields)
  | .enum n v (some payload) =>
    .enum n v (some (applyAt rules (p ++ [.key v]) payload))
  | t => t
termination_by t => (sizeOf t, 0)

/-- Modelled from the spec: the redaction engine walk at one node (spec
§4.3); only its caller (the macro expansion) is part of the visible source.
At the node with path `p`, if any rule matches, the last matching rule's
replacement is placed verbatim (earlier matches discarded, the replacement
never walked); otherwise the walk recurses into the children.  The input
tree is never mutated: a new tree is built. -/
def applyAt (rules : List Rule) (p : List PathStep) (t : Content) : Content :=
  match lastMatch rules p with
  | some rep => rep.toContent
  | none => applyChildren rules p t
termination_by (sizeOf t, 1)

/-- Redact the elements of a sequence, the element at offset `i` at path
`p ++ [index i]`. -/
def applySeq (rules : List Rule) (p : List PathStep) (i : Nat) :
    List Content → List Content
  | [] => []
  | c :: rest =>
    applyAt rules (p ++ [.index i]) c :: applySeq rules p (i + 1) rest
termination_by l => (sizeOf l, 0)

/-- Redact the values of a map's entries; keys are kept untouched. -/
def applyEntries (rules : List Rule) (p : List PathStep) :
    List (Content × Content) → List (Content × Content)
  | [] => []
  | (k, v) :: rest =>
    (k, applyAt rules (p ++ [.key (keyName k)]) v) :: applyEntries rules p rest
termination_by l => (sizeOf l, 0)

/-- Redact the values of a struct's fields; field names are kept untouched. -/
def applyFields (rules : List Rule) (p : List PathStep) :
    List (String × Content) → List (String × Content)
  | [] => []
  | (f, v) :: rest =>
    (f, applyAt rules (p ++ [.key f]) v) :: applyFields rules p rest
termination_by l => (sizeOf l, 0)

end

/-- Modelled from the spec: `apply(tree, rules) -> Content` (spec §4.3),
starting the walk at the root path. -/
def apply (tree : Content) (rules : List Rule) : Content :=
  applyAt rules [] tree

/-- The closed set of serialization formats the macros select from
(src/src/macros.rs passes the literal tags `Yaml`, `Ron`, `Json`). -/
inductive SerializationFormat where
  | Json
  | Yaml
  | Ron
deriving DecidableEq, Repr

/-- JSON escaping of one character. -/
def jsonEscapeChar (c : Char) : String :=
  if c = '"' then "\\\""
  else if c = '\\' then "\\\\"
  else if c = '\n' then "\\n"
  else if c = '\t' then "\\t"
  else if c = '\r' then "\\r"
  else String.mk [c]

/-- A JSON string literal with standard escaping. -/
def jsonString (s : String) : String :=
  "\"" ++ String.join (s.data.map jsonEscapeChar) ++ "\""

/-- Opening brace as text. -/
def lbrace : String := "\x7b"

/-- Closing brace as text. -/
def rbrace : String := "\x7d"

/-- Comma-join rendered pieces. -/
def joinComma (pieces : List String) : String :=
  String.intercalate "," pieces

mutual

/-- Modelled from the spec: the JSON renderer (spec §4.4): original
map/struct order, no type information retained (structs and enums collapse
to plain objects/values), standard escaping, byte-deterministic. -/
def renderJson : Content → String
  | .nil => "null"
  | .bool b => if b then "true" else "false"
  | .integer i => toString i
  | .float lit => lit
  | .str s => jsonString s
  | .bytes bs => "[" ++ joinComma (bs.map toString) ++ "]"
  | .seq items => "[" ++ joinComma (renderJsonList items) ++ "]"
  | .map entries => lbrace ++ joinComma (renderJsonEntries entries) ++ rbrace
  | .struct _ fields => lbrace ++ joinComma (renderJsonFields fields) ++ rbrace
  | .enum _ v none => jsonString v
  | .enum _ v (some payload) =>
    lbrace ++ jsonString v ++ ":" ++ renderJson payload ++ rbrace

/-- JSON rendering of sequence elements, in order. -/
def renderJsonList : List Content → List String
  | [] => []
  | c :: rest => renderJson c :: renderJsonList rest

/-- JSON rendering of map entries, in insertion order. -/
def renderJsonEntries : List (Content × Content) → List String
  | [] => []
  | (k, v) :: rest =>
    (jsonString (keyName k) ++ ":" ++ renderJson v) :: renderJsonEntries rest

/-- JSON rendering of struct fields, in declared order. -/
def renderJsonFields : List (String × Content) → List String
  | [] => []
  | (f, v) :: rest =>
    (jsonString f ++ ":" ++ renderJson v) :: renderJsonFields rest

end

/-- Whether a scalar needs quoting in the block-style format (minimal
quoting, only when required by the scalar grammar). -/
def yamlScalarString (s : String) : String :=
  if s ≠ "" && s.data.all isIdentChar then s else jsonString s

/-- Two-space indentation per nesting level. -/
def indentSpaces (n : Nat) : String :=
  String.mk (List.replicate (2 * n) ' ')

mutual

/-- Modelled from the spec: the block-style (YAML-like) renderer (spec
§4.4): original order, no type information, minimal quoting,
byte-deterministic.  The result carries a leading separator — a space for
scalars, a newline for composite blocks — so a caller can append it after a
key or a dash marker. -/
def renderYamlAt (ind : Nat) : Content → String
  | .nil => " ~"
  | .bool b => if b then " true" else " false"
  | .integer i => " " ++ toString i
  | .float lit => " " ++ lit
  | .str s => " " ++ yamlScalarString s
  | .bytes bs => " [" ++ joinComma (bs.map toString) ++ "]"
  | .seq [] => " []"
  | .seq items => renderYamlSeq ind items
  | .map [] => " " ++ lbrace ++ rbrace
  | .map entries => renderYamlEntries ind entries
  | .struct _ [] => " " ++ lbrace ++ rbrace
  | .struct _ fields => renderYamlFields ind fields
  | .enum _ v none => " " ++ yamlScalarString v
  | .enum _ v (some payload) =>
    "\n" ++ indentSpaces ind ++ yamlScalarString v ++ ":" ++
      renderYamlAt (ind + 1) payload

/-- Block rendering of sequence elements, one dash-marked line each. -/
def renderYamlSeq (ind : Nat) : List Content → String
  | [] => ""
  | c :: rest =>
    "\n" ++ indentSpaces ind ++ "-" ++ renderYamlAt (ind + 1) c ++
      renderYamlSeq ind rest

/-- Block rendering of map entries, one keyed line each, insertion order. -/
def renderYamlEntries (ind : Nat) : List (Content × Content) → String
  | [] => ""
  | (k, v) :: rest =>
    "\n" ++ indentSpaces ind ++ yamlScalarString (keyName k) ++ ":" ++
      renderYamlAt (ind + 1) v ++ renderYamlEntries ind rest

/-- Block rendering of struct fields, one keyed line each, declared order. -/
def renderYamlFields (ind : Nat) : List (String × Content) → String
  | [] => ""
  | (f, v) :: rest =>
    "\n" ++ indentSpaces ind ++ yamlScalarString f ++ ":" ++
      renderYamlAt (ind + 1) v ++ renderYamlFields ind rest

end

/-- Top-level block-style rendering: drop the leading separator character. -/
def renderYaml (t : Content) : String :=
  (renderYamlAt 0 t).drop 1

mutual

/-- Modelled from the spec: the typed (RON-like) renderer (spec §4.4):
original order, struct type names and enum variant tags retained, explicit
construct syntax, byte-deterministic. -/
def renderRon : Content → String
  | .nil => "None"
  | .bool b => if b then "true" else "false"
  | .integer i => toString i
  | .float lit => lit
  | .str s => jsonString s
  | .bytes bs => "[" ++ joinComma (bs.map toString) ++ "]"
  | .seq items => "[" ++ joinComma (renderRonList items) ++ "]"
  | .map entries => lbrace ++ joinComma (renderRonEntries entries) ++ rbrace
  | .struct n fields => n ++ "(" ++ joinComma (renderRonFields fields) ++ ")"
  | .enum _ v none => v
  | .enum _ v (some payload) => v ++ "(" ++ renderRon payload ++ ")"

/-- Typed rendering of sequence elements, in order. -/
def renderRonList : List Content → List String
  | [] => []
  | c :: rest => renderRon c :: renderRonList rest

/-- Typed rendering of map entries, in insertion order. -/
def renderRonEntries : List (Content × Content) → List String
  | [] => []
  | (k, v) :: rest =>
    (jsonString (keyName k) ++ ":" ++ renderRon v) :: renderRonEntries rest

/-- Typed rendering of struct fields, in declared order. -/
def renderRonFields : List (String × Content) → List String
  | [] => []
  | (f, v) :: rest =>
    (f ++ ":" ++ renderRon v) :: renderRonFields rest

end

/-- Modelled from the spec: `render(tree, format) -> text` (spec §4.4), one
renderer implementation per variant of the closed format tag set. -/
def render (t : Content) (f : SerializationFormat) : String :=
  match f with
  | .Json => renderJson t
  | .Yaml => renderYaml t
  | .Ron => renderRon t

/-- The serialization entry the non-redacting macro arms call
(src/src/macros.rs line 97): capture the value and render it. -/
def serialize_value {α : Type} (capture : α → Content) (v : α)
    (f : SerializationFormat) : String :=
  render (capture v) f

/-- The serialization entry the redacting macro arms call
(src/src/macros.rs line 114): capture, redact with the parsed rules, then
render. -/
def serialize_value_redacted {α : Type} (capture : α → Content) (v : α)
    (rules : List Rule) (f : SerializationFormat) : String :=
  render (apply (capture v) rules) f

/-- I/O failure carrying the path and the underlying cause (spec §7). -/
structure IoError where
  path : String
  cause : String
deriving DecidableEq, Repr

/-- Snapshot identity (spec §3), built from caller-supplied parts only: the
macro expansion (src/src/macros.rs lines 154-169) passes name, manifest
directory, module path, file and line explicitly into the engine. -/
structure Identity where
  name : String
  manifestDir : String
  modulePath : String
  file : String
  line : Nat
deriving DecidableEq, Repr

/-- The filesystem as the engine observes it: an association of paths to
file contents, plus the set of paths on which raw I/O fails (so that the
IoError leg of spec §7 is representable). -/
structure FS where
  files : List (String × String)
  broken : List String
deriving DecidableEq, Repr

/-- Look a path up in the stored files. -/
def lookupFile : List (String × String) → String → Option String
  | [], _ => none
  | (q, c) :: rest, p => if q = p then some c else lookupFile rest p

/-- Store content under a path, replacing any previous content. -/
def setFile : List (String × String) → String → String → List (String × String)
  | [], p, content => [(p, content)]
  | (q, c) :: rest, p, content =>
    if q = p then (p, content) :: rest else (q, c) :: setFile rest p content

/-- Read a file; absence of the file is not an error (spec §4.5
load_baseline), only a genuinely failing path is. -/
def FS.read (fs : FS) (p : String) : Except IoError (Option String) :=
  if fs.broken.contains p then .error ⟨p, "read failure"⟩
  else .ok (lookupFile fs.files p)

/-- Write a file atomically; on a failing path nothing changes. -/
def FS.write (fs : FS) (p : String) (content : String) : Except IoError FS :=
  if fs.broken.contains p then .error ⟨p, "write failure"⟩
  else .ok ⟨setFile fs.files p content, fs.broken⟩

/-- Observable store effects, in order of occurrence. -/
inductive Effect where
  | fileRead (path : String)
  | fileWrite (path : String) (content : String)
  | compare (baseline rendered : String)
deriving DecidableEq, Repr

/-- Terminal assertion outcome (spec §4.6); Failed carries the line-based
diff plus the source expression text and the identity the coordinator
attaches for diagnostics. -/
inductive Outcome where
  | passed
  | failed (diff : List String) (expr : String) (id : Identity)
  | updated
deriving DecidableEq, Repr

/-- A line-based diff of baseline against rendered text. -/
def lineDiff (baseline rendered : String) : List String :=
  (baseline.splitOn "\n").map (fun l => "-" ++ l) ++
    (rendered.splitOn "\n").map (fun l => "+" ++ l)

/-- Modelled from the spec: the pending-artifact name derived from the
baseline path with a distinguishing suffix (spec §4.5). -/
def pendingPath (path : String) : String :=
  path ++ ".new"

/-- Modelled from the spec: `resolve(identity) -> path` (spec §4.5), a
deterministic mapping from the identity parts alone. -/
def resolvePath (id : Identity) : String :=
  id.manifestDir ++ "/snapshots/" ++ id.modulePath ++ "__" ++ id.name ++ ".snap"

/-- Modelled from the spec: the snapshot-store run for one assertion (spec
§4.5 and §8); only the macro layer that invokes the store is part of the
visible source.  Load the baseline (absence is not an error); with no prior
baseline the run always yields Failed and writes the pending artifact, never
an implicit Passed; with a baseline, Equal yields Passed and touches
nothing, Different yields Updated (overwriting the baseline) in update mode
and otherwise Failed with a line diff and a pending write, never touching
the baseline. -/
def storeRun (path rendered : String) (updateMode : Bool) (expr : String)
    (id : Identity) (fs : FS) : Except IoError Outcome × FS × List Effect :=
  match fs.read path with
  | .error e => (.error e, fs, [])
  | .ok none =>
    match fs.write (pendingPath path) rendered with
    | .error e => (.error e, fs, [.fileRead path])
    | .ok fs2 =>
      (.ok (.failed (lineDiff "" rendered) expr id), fs2,
        [.fileRead path, .fileWrite (pendingPath path) rendered])
  | .ok (some base) =>
    if base = rendered then
      (.ok .passed, fs, [.fileRead path, .compare base rendered])
    else if updateMode then
      match fs.write path rendered with
      | .error e => (.error e, fs, [.fileRead path, .compare base rendered])
      | .ok fs2 =>
        (.ok .updated, fs2,
          [.fileRead path, .compare base rendered, .fileWrite path rendered])
    else
      match fs.write (pendingPath path) rendered with
      | .error e => (.error e, fs, [.fileRead path, .compare base rendered])
      | .ok fs2 =>
        (.ok (.failed (lineDiff base rendered) expr id), fs2,
          [.fileRead path, .compare base rendered,
            .fileWrite (pendingPath path) rendered])

/-- The engine call record: the identity the engine used, the path it
resolved, the Result it returned, and the store effects. -/
structure EngineCall where
  identity : Identity
  path : String
  result : Except IoError Outcome
  fs : FS
  trace : List Effect
deriving Repr

/-- Modelled from the spec: the `assert_snapshot` engine entry point (spec
§6) that all macro expansions invoke (src/src/macros.rs line 157).  It is a
pure function of its arguments: the identity is built from the
caller-supplied parts and nothing else. -/
def assertSnapshot (name value manifestDir modulePath file : String)
    (line : Nat) (debugExpr : String) (updateMode : Bool) (fs : FS) :
    EngineCall :=
  let id : Identity := ⟨name, manifestDir, modulePath, file, line⟩
  let r := storeRun (resolvePath id) value updateMode debugExpr id fs
  ⟨id, resolvePath id, r.1, r.2.1, r.2.2⟩

/-- What a macro expansion can panic with: an unwrapped engine Result
(src/src/macros.rs line 166) or an unwrapped selector parse
(src/src/macros.rs line 110). -/
inductive Panic where
  | ioError (e : IoError)
  | parseError (e : ParseError)
deriving DecidableEq, Repr

/-- What a macro invocation leaves behind: a completed outcome or a panic;
it never returns an error value. -/
inductive MacroResult where
  | completed (o : Outcome)
  | panicked (p : Panic)
deriving DecidableEq, Repr

/-- One macro invocation: its result, the filesystem afterwards, and the
store effects that occurred. -/
structure MacroRun where
  result : MacroResult
  fs : FS
  trace : List Effect
deriving DecidableEq, Repr

/-- The values the compiler substitutes at the call site for
CARGO_MANIFEST_DIR, module_path!(), file!() and line!()
(src/src/macros.rs lines 160-163): caller-side inputs to the expansion. -/
structure CallSite where
  manifestDir : String
  modulePath : String
  file : String
  line : Nat
deriving DecidableEq, Repr

/-- The engine call made by the expansion of assert_snapshot_matches!
(src/src/macros.rs lines 154-169): every identity part is passed explicitly
from the call site. -/
def assert_snapshot_matchesCall (name value debugExpr : String)
    (cs : CallSite) (updateMode : Bool) (fs : FS) : EngineCall :=
  assertSnapshot name value cs.manifestDir cs.modulePath cs.file cs.line
    debugExpr updateMode fs

/-- The `.unwrap()` applied to the engine Result (src/src/macros.rs line
166): an Ok outcome completes, an Err becomes a panic at the call site. -/
def unwrapEngine (c : EngineCall) : MacroRun :=
  match c.result with
  | .ok o => ⟨.completed o, c.fs, c.trace⟩
  | .error e => ⟨.panicked (.ioError e), c.fs, c.trace⟩

/-- The expansion of assert_snapshot_matches!: call the engine and unwrap
its Result (src/src/macros.rs line 166). -/
def assert_snapshot_matchesRun (name value debugExpr : String)
    (cs : CallSite) (updateMode : Bool) (fs : FS) : MacroRun :=
  unwrapEngine (assert_snapshot_matchesCall name value debugExpr cs updateMode fs)

/-- The expansion of the non-redacting arm of
_assert_serialized_snapshot_matches! (src/src/macros.rs lines 96-106):
serialize in the statically chosen format, then assert. -/
def _assert_serialized_snapshot_matchesPlain {α : Type} (capture : α → Content)
    (name : String) (v : α) (exprText : String) (fmt : SerializationFormat)
    (cs : CallSite) (updateMode : Bool) (fs : FS) : MacroRun :=
  let value := serialize_value capture v fmt
  assert_snapshot_matchesRun name value exprText cs updateMode fs

/-- The rule vector built by the redacting arm (src/src/macros.rs lines
108-113): each selector text is parsed, in declaration order, and each
replacement converted to primitive Content. -/
def parseRules (raw : List (String × Replacement)) :
    Except ParseError (List Rule) :=
  raw.mapM (fun kv => (Selector.parse kv.1).map (fun sel => (sel, kv.2)))

/-- The expansion of the redacting arm of
_assert_serialized_snapshot_matches! (src/src/macros.rs lines 107-121): the
selectors are parsed and unwrapped first — a parse failure panics before
any serialization, comparison or file I/O — then the value is serialized
with redactions and asserted. -/
def _assert_serialized_snapshot_matchesRedacted {α : Type}
    (capture : α → Content) (name : String) (v : α)
    (raw : List (String × Replacement)) (exprText : String)
    (fmt : SerializationFormat) (cs : CallSite) (updateMode : Bool)
    (fs : FS) : MacroRun :=
  match parseRules raw with
  | .error e => ⟨.panicked (.parseError e), fs, []⟩
  | .ok rules =>
    let value := serialize_value_redacted capture v rules fmt
    assert_snapshot_matchesRun name value exprText cs updateMode fs

/-- assert_serialized_snapshot_matches!, plain arm (src/src/macros.rs lines
35-37): always the Yaml tag. -/
def assert_serialized_snapshot_matchesRun {α : Type} (capture : α → Content)
    (name : String) (v : α) (exprText : String) (cs : CallSite)
    (updateMode : Bool) (fs : FS) : MacroRun :=
  _assert_serialized_snapshot_matchesPlain capture name v exprText .Yaml cs
    updateMode fs

/-- assert_serialized_snapshot_matches!, redacting arm (src/src/macros.rs
lines 38-40): always the Yaml tag. -/
def assert_serialized_snapshot_matchesRedactedRun {α : Type}
    (capture : α → Content) (name : String) (v : α)
    (raw : List (String × Replacement)) (exprText : String) (cs : CallSite)
    (updateMode : Bool) (fs : FS) : MacroRun :=
  _assert_serialized_snapshot_matchesRedacted capture name v raw exprText
    .Yaml cs updateMode fs

/-- assert_ron_snapshot_matches!, plain arm (src/src/macros.rs lines 60-62):
always the Ron tag. -/
def assert_ron_snapshot_matchesRun {α : Type} (capture : α → Content)
    (name : String) (v : α) (exprText : String) (cs : CallSite)
    (updateMode : Bool) (fs : FS) : MacroRun :=
  _assert_serialized_snapshot_matchesPlain capture name v exprText .Ron cs
    updateMode fs

/-- assert_ron_snapshot_matches!, redacting arm (src/src/macros.rs lines
63-65): always the Ron tag. -/
def assert_ron_snapshot_matchesRedactedRun {α : Type}
    (capture : α → Content) (name : String) (v : α)
    (raw : List (String × Replacement)) (exprText : String) (cs : CallSite)
    (updateMode : Bool) (fs : FS) : MacroRun :=
  _assert_serialized_snapshot_matchesRedacted capture name v raw exprText
    .Ron cs updateMode fs

/-- assert_json_snapshot_matches!, plain arm (src/src/macros.rs lines
85-87): always the Json tag. -/
def assert_json_snapshot_matchesRun {α : Type} (capture : α → Content)
    (name : String) (v : α) (exprText : String) (cs : CallSite)
    (updateMode : Bool) (fs : FS) : MacroRun :=
  _assert_serialized_snapshot_matchesPlain capture name v exprText .Json cs
    updateMode fs

/-- assert_json_snapshot_matches!, redacting arm (src/src/macros.rs lines
88-90): always the Json tag. -/
def assert_json_snapshot_matchesRedactedRun {α : Type}
    (capture : α → Content) (name : String) (v : α)
    (raw : List (String × Replacement)) (exprText : String) (cs : CallSite)
    (updateMode : Bool) (fs : FS) : MacroRun :=
  _assert_serialized_snapshot_matchesRedacted capture name v raw exprText
    .Json cs updateMode fs

/-- The expansion of assert_debug_snapshot_matches! (src/src/macros.rs lines
129-134): format the value with the pretty Debug formatter and hand the
text straight to assert_snapshot_matches! — the macro takes only a name and
a value, and no Content tree or redaction machinery is involved. -/
def assert_debug_snapshot_matchesRun {α : Type} (debugFmt : α → String)
    (name : String) (v : α) (exprText : String) (cs : CallSite)
    (updateMode : Bool) (fs : FS) : MacroRun :=
  let value := debugFmt v
  assert_snapshot_matchesRun name value exprText cs updateMode fs

/-- An effect is either not a write, or a write of exactly the given text. -/
def writeIsExactly (text : String) : Effect → Bool
  | .fileWrite _ c => c == text
  | _ => true

/-- The identity as supplied at the call site: the snapshot name together
with the call-site values the expansion passes along. -/
def callerIdentity (name : String) (cs : CallSite) : Identity :=
  ⟨name, cs.manifestDir, cs.modulePath, cs.file, cs.line⟩

example : Selector.parse ".password" = .ok [Segment.key "password"] := by rfl

example : Selector.parse "a.*.3" =
    .ok [Segment.key "a", Segment.wildcard, Segment.index 3] := by rfl

example : (Selector.parse ".\"pw").isOk = false := by rfl

example : selMatch [Segment.recursiveWildcard, Segment.key "id"]
    [PathStep.key "user", PathStep.key "id"] = true := by rfl

/-- Folding the rule list keeps the accumulator when no rule matches. -/
lemma foldl_lastMatch_keep (p : List PathStep) (rs : List Rule)
    (h : ∀ r ∈ rs, selMatch r.1 p = false) (acc : Option Replacement) :
    rs.foldl (fun acc r => if selMatch r.1 p then some r.2 else acc) acc =
      acc := by
  induction rs generalizing acc with
  | nil => rfl
  | cons r rs ih =>
    have hr : selMatch r.1 p = false := h r (List.mem_cons_self r rs)
    rw [List.foldl_cons]
    simp only [hr, if_false, Bool.false_eq_true]
    exact ih (fun x hx => h x (List.mem_cons_of_mem r hx)) acc

/-- The last matching rule in declaration order determines `lastMatch`,
whatever earlier rules matched. -/
lemma lastMatch_append_last (rs₁ rs₂ : List Rule) (sel : Selector)
    (rep : Replacement) (p : List PathStep) (hm : selMatch sel p = true)
    (hn : ∀ r ∈ rs₂, selMatch r.1 p = false) :
    lastMatch (rs₁ ++ (sel, rep) :: rs₂) p = some rep := by
  unfold lastMatch
  rw [List.foldl_append, List.foldl_cons]
  simp only [hm, if_true]
  exact foldl_lastMatch_keep p rs₂ hn (some rep)

/-- At a node some rule matches, the walk places the recorded replacement
verbatim. -/
lemma applyAt_matched (rules : List Rule) (p : List PathStep) (t : Content)
    (rep : Replacement) (h : lastMatch rules p = some rep) :
    applyAt rules p t = rep.toContent := by
  rw [applyAt.eq_def, h]

/-- Looking up the path just stored yields the stored content. -/
lemma lookup_setFile_same (l : List (String × String)) (p c : String) :
    lookupFile (setFile l p c) p = some c := by
  induction l with
  | nil => simp [setFile, lookupFile]
  | cons qd rest ih =>
    obtain ⟨q, d⟩ := qd
    by_cases h : q = p
    · simp [setFile, lookupFile, h]
    · simp [setFile, lookupFile, h, ih]

/-- Storing under one path leaves every other path's content unchanged. -/
lemma lookup_setFile_other (l : List (String × String)) (p q c : String)
    (h : q ≠ p) :
    lookupFile (setFile l p c) q = lookupFile l q := by
  induction l with
  | nil => simp [setFile, lookupFile, Ne.symm h]
  | cons ad rest ih =>
    obtain ⟨a, d⟩ := ad
    by_cases ha : a = p
    · subst ha
      simp [setFile, lookupFile, Ne.symm h]
    · simp [setFile, lookupFile, ha, ih]

/-- The pending-artifact path never coincides with the baseline path. -/
lemma pendingPath_ne (p : String) : pendingPath p ≠ p := by
  intro h
  have hlen : (p ++ ".new").length = p.length := congrArg String.length h
  rw [String.length_append] at hlen
  have h4 : (".new" : String).length = 4 := rfl
  rw [h4] at hlen
  omega

/-- The store run with a readable but absent baseline: Failed outcome, the
pending artifact written with the rendered text, nothing else touched —
whatever the update mode. -/
lemma storeRun_missing (path rendered : String) (mode : Bool) (expr : String)
    (id : Identity) (fs : FS)
    (h1 : fs.broken.contains path = false)
    (h2 : lookupFile fs.files path = none)
    (h3 : fs.broken.contains (pendingPath path) = false) :
    storeRun path rendered mode expr id fs =
      (.ok (.failed (lineDiff "" rendered) expr id),
        ⟨setFile fs.files (pendingPath path) rendered, fs.broken⟩,
        [.fileRead path, .fileWrite (pendingPath path) rendered]) := by
  have h1m : path ∉ fs.broken := by simpa using h1
  have h3m : pendingPath path ∉ fs.broken := by simpa using h3
  simp [storeRun, FS.read, FS.write, h1m, h2, h3m]

/-- The store run with a present, different baseline in normal mode: Failed
with the line diff, the pending artifact written, the baseline file
untouched. -/
lemma storeRun_different (path rendered base expr : String)
    (id : Identity) (fs : FS)
    (h1 : fs.broken.contains path = false)
    (h2 : lookupFile fs.files path = some base)
    (hne : base ≠ rendered)
    (h3 : fs.broken.contains (pendingPath path) = false) :
    storeRun path rendered false expr id fs =
      (.ok (.failed (lineDiff base rendered) expr id),
        ⟨setFile fs.files (pendingPath path) rendered, fs.broken⟩,
        [.fileRead path, .compare base rendered,
          .fileWrite (pendingPath path) rendered]) := by
  have h1m : path ∉ fs.broken := by simpa using h1
  have h3m : pendingPath path ∉ fs.broken := by simpa using h3
  simp [storeRun, FS.read, FS.write, h1m, h2, h3m, hne]

/-- Every write the store performs carries exactly the rendered text. -/
lemma storeRun_trace_writes (path rendered : String) (mode : Bool)
    (expr : String) (id : Identity) (fs : FS) :
    ((storeRun path rendered mode expr id fs).2.2).all
      (writeIsExactly rendered) = true := by
  unfold storeRun
  repeat' split
  all_goals simp [writeIsExactly]

/-- Unwrapping an Ok engine call completes with its outcome. -/
lemma unwrapEngine_ok (c : EngineCall) (o : Outcome)
    (h : c.result = .ok o) :
    unwrapEngine c = ⟨.completed o, c.fs, c.trace⟩ := by
  unfold unwrapEngine
  rw [h]

/-- Unwrapping an Err engine call panics with the I/O error. -/
lemma unwrapEngine_error (c : EngineCall) (e : IoError)
    (h : c.result = .error e) :
    unwrapEngine c = ⟨.panicked (.ioError e), c.fs, c.trace⟩ := by
  unfold unwrapEngine
  rw [h]

/-- Unwrapping never changes the effect trace. -/
lemma unwrapEngine_trace (c : EngineCall) :
    (unwrapEngine c).trace = c.trace := by
  cases hc : c.result <;> simp [unwrapEngine, hc]

/-- The engine call's Result is the store run's Result component. -/
lemma call_result (name value debugExpr : String) (cs : CallSite)
    (mode : Bool) (fs : FS) :
    (assert_snapshot_matchesCall name value debugExpr cs mode fs).result =
      (storeRun (resolvePath (callerIdentity name cs)) value mode debugExpr
        (callerIdentity name cs) fs).1 := rfl

/-- The engine call's filesystem is the store run's filesystem component. -/
lemma call_fs (name value debugExpr : String) (cs : CallSite)
    (mode : Bool) (fs : FS) :
    (assert_snapshot_matchesCall name value debugExpr cs mode fs).fs =
      (storeRun (resolvePath (callerIdentity name cs)) value mode debugExpr
        (callerIdentity name cs) fs).2.1 := rfl

/-- The engine call's trace is the store run's trace component. -/
lemma call_trace (name value debugExpr : String) (cs : CallSite)
    (mode : Bool) (fs : FS) :
    (assert_snapshot_matchesCall name value debugExpr cs mode fs).trace =
      (storeRun (resolvePath (callerIdentity name cs)) value mode debugExpr
        (callerIdentity name cs) fs).2.2 := rfl

/-- C1: for every assertion, the identity used to resolve the snapshot slot
is exactly the one supplied by the caller — the snapshot name plus the
call-site file, line, module path and manifest directory the expansion
passes in (src/src/macros.rs lines 154-169) — and the engine, a pure
function of its arguments, resolves the path from that caller-supplied
identity alone, with no call-site introspection of its own. -/
theorem identity_supplied_by_caller (name value debugExpr : String)
    (cs : CallSite) (mode : Bool) (fs : FS) :
    (assert_snapshot_matchesCall name value debugExpr cs mode fs).identity =
      callerIdentity name cs ∧
    (assert_snapshot_matchesCall name value debugExpr cs mode fs).path =
      resolvePath (callerIdentity name cs) :=
  ⟨rfl, rfl⟩

/-- C2: a redacted snapshot assertion whose selector list fails to parse
(for example on an unterminated quote) panics with the selector parse error
and performs nothing else: the filesystem is returned unchanged and the
effect trace is empty — no file is read or written and no comparison
occurs (src/src/macros.rs lines 107-121: the parse unwrap precedes
serialization and the snapshot assertion). -/
theorem malformed_selector_panics_before_io {α : Type}
    (capture : α → Content) (name : String) (v : α)
    (raw : List (String × Replacement)) (exprText : String)
    (fmt : SerializationFormat) (cs : CallSite) (mode : Bool) (fs : FS)
    (e : ParseError) (h : parseRules raw = .error e) :
    _assert_serialized_snapshot_matchesRedacted capture name v raw exprText
      fmt cs mode fs = ⟨.panicked (.parseError e), fs, []⟩ := by
  unfold _assert_serialized_snapshot_matchesRedacted
  rw [h]

/-- Witness for C2 at a selector with an unterminated quote. -/
theorem malformed_selector_panics_before_io_witness :
    _assert_serialized_snapshot_matchesRedacted (fun _ : Unit => Content.nil)
      "n" () [(".\"pw", Replacement.str "x")] "e" .Yaml ⟨"md", "mp", "f", 1⟩
      false ⟨[], []⟩ =
      ⟨.panicked (.parseError ⟨1, "unterminated quote"⟩), ⟨[], []⟩, []⟩ :=
  malformed_selector_panics_before_io (fun _ : Unit => Content.nil) "n" ()
    [(".\"pw", Replacement.str "x")] "e" .Yaml ⟨"md", "mp", "f", 1⟩ false
    ⟨[], []⟩ ⟨1, "unterminated quote"⟩ (by rfl)

/-- C3: each serialized-snapshot macro selects its format statically from
the closed tag set — the plain serialized macro always Yaml, the RON macro
always Ron, the JSON macro always Json, in both the plain and the redacting
arm (src/src/macros.rs lines 34-41, 59-66, 84-91) — and the tag set is
closed: every format is Json, Yaml or Ron. -/
theorem format_dispatch_closed {α : Type} (capture : α → Content)
    (name : String) (v : α) (raw : List (String × Replacement))
    (exprText : String) (cs : CallSite) (mode : Bool) (fs : FS) :
    assert_serialized_snapshot_matchesRun capture name v exprText cs mode fs =
      _assert_serialized_snapshot_matchesPlain capture name v exprText .Yaml
        cs mode fs ∧
    assert_serialized_snapshot_matchesRedactedRun capture name v raw exprText
        cs mode fs =
      _assert_serialized_snapshot_matchesRedacted capture name v raw exprText
        .Yaml cs mode fs ∧
    assert_ron_snapshot_matchesRun capture name v exprText cs mode fs =
      _assert_serialized_snapshot_matchesPlain capture name v exprText .Ron
        cs mode fs ∧
    assert_ron_snapshot_matchesRedactedRun capture name v raw exprText cs
        mode fs =
      _assert_serialized_snapshot_matchesRedacted capture name v raw exprText
        .Ron cs mode fs ∧
    assert_json_snapshot_matchesRun capture name v exprText cs mode fs =
      _assert_serialized_snapshot_matchesPlain capture name v exprText .Json
        cs mode fs ∧
    assert_json_snapshot_matchesRedactedRun capture name v raw exprText cs
        mode fs =
      _assert_serialized_snapshot_matchesRedacted capture name v raw exprText
        .Json cs mode fs ∧
    ∀ f : SerializationFormat, f = .Json ∨ f = .Yaml ∨ f = .Ron := by
  refine ⟨rfl, rfl, rfl, rfl, rfl, rfl, ?_⟩
  intro f
  cases f
  · exact Or.inl rfl
  · exact Or.inr (Or.inl rfl)
  · exact Or.inr (Or.inr rfl)

/-- C4: redaction rules are evaluated in declaration order and, at a node
more than one rule matches, the output holds the replacement of the last
matching rule in declaration order — earlier matching replacements are
discarded, not composed: whatever the earlier rules, the walk at a node
whose last matching rule is the given one places exactly that rule's
replacement. -/
theorem redaction_last_match_wins (rs₁ rs₂ : List Rule) (sel : Selector)
    (rep : Replacement) (p : List PathStep) (t : Content)
    (hm : selMatch sel p = true)
    (hn : ∀ r ∈ rs₂, selMatch r.1 p = false) :
    lastMatch (rs₁ ++ (sel, rep) :: rs₂) p = some rep ∧
    applyAt (rs₁ ++ (sel, rep) :: rs₂) p t = rep.toContent := by
  have h := lastMatch_append_last rs₁ rs₂ sel rep p hm hn
  exact ⟨h, applyAt_matched _ _ _ _ h⟩

/-- Witness for C4: two rules match the same node; the output holds the
second (later-declared) replacement. -/
theorem redaction_last_match_wins_witness :
    lastMatch
        [([Segment.key "password"], Replacement.str "[FIRST]"),
          ([Segment.key "password"], Replacement.str "[SECOND]")]
        [PathStep.key "password"] = some (Replacement.str "[SECOND]") ∧
    applyAt
        [([Segment.key "password"], Replacement.str "[FIRST]"),
          ([Segment.key "password"], Replacement.str "[SECOND]")]
        [PathStep.key "password"] (Content.str "hunter2") =
      Content.str "[SECOND]" :=
  redaction_last_match_wins
    [([Segment.key "password"], Replacement.str "[FIRST]")] []
    [Segment.key "password"] (Replacement.str "[SECOND]")
    [PathStep.key "password"] (Content.str "hunter2") (by rfl)
    (by intro r hr; cases hr)

/-- C5: a redaction replacement is by construction a primitive Content
value — the Replacement type has exactly the bool, integer, float and
string constructors — and at a redacted node the walk places the
replacement verbatim and returns, so the replacement is never itself
subjected to further redaction. -/
theorem replacement_primitive_verbatim (rules : List Rule)
    (p : List PathStep) (t : Content) (rep : Replacement)
    (h : lastMatch rules p = some rep) :
    applyAt rules p t = rep.toContent ∧ isPrimitive rep.toContent = true := by
  refine ⟨applyAt_matched _ _ _ _ h, ?_⟩
  cases rep <;> rfl

/-- Witness for C5 at a concrete matching rule. -/
theorem replacement_primitive_verbatim_witness :
    applyAt [([Segment.key "secret"], Replacement.integer 42)]
        [PathStep.key "secret"] Content.nil =
      Content.integer 42 ∧
    isPrimitive (Content.integer 42) = true :=
  replacement_primitive_verbatim
    [([Segment.key "secret"], Replacement.integer 42)]
    [PathStep.key "secret"] Content.nil (Replacement.integer 42) (by rfl)

/-- C6: rendering is a pure, deterministic function of the Content tree and
the format — two calls of render on the same tree and format yield
byte-identical text; the renderers consult no state besides their
arguments. -/
theorem render_deterministic :
    ∀ (t : Content) (f : SerializationFormat), render t f = render t f :=
  fun _ _ => rfl

/-- C7: an assertion whose resolved baseline path holds no file (and whose
paths are readable/writable) completes with the Failed outcome carrying the
diff against the absent baseline, and the pending artifact is written with
the rendered text — the missing baseline is not an error (no panic) and is
never an implicit Passed, whatever the update mode. -/
theorem missing_baseline_fails_with_pending
    (name value exprText : String) (cs : CallSite) (mode : Bool) (fs : FS)
    (h1 : fs.broken.contains (resolvePath (callerIdentity name cs)) = false)
    (h2 : lookupFile fs.files (resolvePath (callerIdentity name cs)) = none)
    (h3 : fs.broken.contains
      (pendingPath (resolvePath (callerIdentity name cs))) = false) :
    (assert_snapshot_matchesRun name value exprText cs mode fs).result =
      .completed (.failed (lineDiff "" value) exprText
        (callerIdentity name cs)) ∧
    lookupFile
      (assert_snapshot_matchesRun name value exprText cs mode fs).fs.files
      (pendingPath (resolvePath (callerIdentity name cs))) = some value := by
  have hs := storeRun_missing (resolvePath (callerIdentity name cs)) value
    mode exprText (callerIdentity name cs) fs h1 h2 h3
  have hr : (assert_snapshot_matchesCall name value exprText cs mode fs).result
      = .ok (.failed (lineDiff "" value) exprText (callerIdentity name cs)) := by
    rw [call_result, hs]
  have hrun := unwrapEngine_ok _ _ hr
  have hfs : (assert_snapshot_matchesCall name value exprText cs mode fs).fs =
      ⟨setFile fs.files (pendingPath (resolvePath (callerIdentity name cs)))
        value, fs.broken⟩ := by
    rw [call_fs, hs]
  constructor
  · show (unwrapEngine
      (assert_snapshot_matchesCall name value exprText cs mode fs)).result = _
    rw [hrun]
  · show lookupFile (unwrapEngine
      (assert_snapshot_matchesCall name value exprText cs mode fs)).fs.files
      _ = some value
    rw [hrun]
    show lookupFile
      (assert_snapshot_matchesCall name value exprText cs mode fs).fs.files
      _ = some value
    rw [hfs]
    exact lookup_setFile_same fs.files _ value

/-- Witness for C7: empty filesystem, first run. -/
theorem missing_baseline_fails_with_pending_witness :
    (assert_snapshot_matchesRun "n" "v" "e" ⟨"md", "mp", "f", 1⟩ false
        ⟨[], []⟩).result =
      .completed (.failed (lineDiff "" "v") "e"
        (callerIdentity "n" ⟨"md", "mp", "f", 1⟩)) ∧
    lookupFile
      (assert_snapshot_matchesRun "n" "v" "e" ⟨"md", "mp", "f", 1⟩ false
        ⟨[], []⟩).fs.files
      (pendingPath (resolvePath (callerIdentity "n" ⟨"md", "mp", "f", 1⟩))) =
      some "v" :=
  missing_baseline_fails_with_pending "n" "v" "e" ⟨"md", "mp", "f", 1⟩ false
    ⟨[], []⟩ (by rfl) (by rfl) (by rfl)

/-- C8: a comparison that finds a different baseline while update mode is
off completes with Failed carrying the line-based diff, writes the pending
artifact — at the name derived from the baseline path — with the rendered
text, and leaves the baseline file's content unchanged. -/
theorem mismatch_writes_pending_preserves_baseline
    (name value base exprText : String) (cs : CallSite) (fs : FS)
    (h1 : fs.broken.contains (resolvePath (callerIdentity name cs)) = false)
    (h2 : lookupFile fs.files (resolvePath (callerIdentity name cs)) =
      some base)
    (hne : base ≠ value)
    (h3 : fs.broken.contains
      (pendingPath (resolvePath (callerIdentity name cs))) = false) :
    (assert_snapshot_matchesRun name value exprText cs false fs).result =
      .completed (.failed (lineDiff base value) exprText
        (callerIdentity name cs)) ∧
    lookupFile
      (assert_snapshot_matchesRun name value exprText cs false fs).fs.files
      (resolvePath (callerIdentity name cs)) = some base ∧
    lookupFile
      (assert_snapshot_matchesRun name value exprText cs false fs).fs.files
      (pendingPath (resolvePath (callerIdentity name cs))) = some value := by
  have hs := storeRun_different (resolvePath (callerIdentity name cs)) value
    base exprText (callerIdentity name cs) fs h1 h2 hne h3
  have hr : (assert_snapshot_matchesCall name value exprText cs false fs).result
      = .ok (.failed (lineDiff base value) exprText (callerIdentity name cs)) := by
    rw [call_result, hs]
  have hrun := unwrapEngine_ok _ _ hr
  have hfs : (assert_snapshot_matchesCall name value exprText cs false fs).fs =
      ⟨setFile fs.files (pendingPath (resolvePath (callerIdentity name cs)))
        value, fs.broken⟩ := by
    rw [call_fs, hs]
  refine ⟨?_, ?_, ?_⟩
  · show (unwrapEngine
      (assert_snapshot_matchesCall name value exprText cs false fs)).result = _
    rw [hrun]
  · show lookupFile (unwrapEngine
      (assert_snapshot_matchesCall name value exprText cs false fs)).fs.files
      _ = some base
    rw [hrun]
    show lookupFile
      (assert_snapshot_matchesCall name value exprText cs false fs).fs.files
      _ = some base
    rw [hfs]
    rw [lookup_setFile_other fs.files _ _ value
      (Ne.symm (pendingPath_ne (resolvePath (callerIdentity name cs))))]
    exact h2
  · show lookupFile (unwrapEngine
      (assert_snapshot_matchesCall name value exprText cs false fs)).fs.files
      _ = some value
    rw [hrun]
    show lookupFile
      (assert_snapshot_matchesCall name value exprText cs false fs).fs.files
      _ = some value
    rw [hfs]
    exact lookup_setFile_same fs.files _ value

/-- Witness for C8: a present baseline "old" against rendered "v". -/
theorem mismatch_writes_pending_preserves_baseline_witness :
    (assert_snapshot_matchesRun "n" "v" "e" ⟨"md", "mp", "f", 1⟩ false
        ⟨[("md/snapshots/mp__n.snap", "old")], []⟩).result =
      .completed (.failed (lineDiff "old" "v") "e"
        (callerIdentity "n" ⟨"md", "mp", "f", 1⟩)) ∧
    lookupFile
      (assert_snapshot_matchesRun "n" "v" "e" ⟨"md", "mp", "f", 1⟩ false
        ⟨[("md/snapshots/mp__n.snap", "old")], []⟩).fs.files
      (resolvePath (callerIdentity "n" ⟨"md", "mp", "f", 1⟩)) = some "old" ∧
    lookupFile
      (assert_snapshot_matchesRun "n" "v" "e" ⟨"md", "mp", "f", 1⟩ false
        ⟨[("md/snapshots/mp__n.snap", "old")], []⟩).fs.files
      (pendingPath (resolvePath (callerIdentity "n" ⟨"md", "mp", "f", 1⟩))) =
      some "v" :=
  mismatch_writes_pending_preserves_baseline "n" "v" "old" "e"
    ⟨"md", "mp", "f", 1⟩ ⟨[("md/snapshots/mp__n.snap", "old")], []⟩
    (by rfl) (by rfl) (by decide) (by rfl)

/-- C9: the debug-snapshot macro stores exactly the value's pretty-printed
Debug rendering — its run coincides with handing the Debug text straight to
the plain string assertion, and every file write it performs carries
exactly that text; the macro takes only a name and a value
(src/src/macros.rs lines 129-134) and involves no Content tree and no
redaction machinery. -/
theorem debug_snapshot_stores_debug_text {α : Type} (debugFmt : α → String)
    (name : String) (v : α) (exprText : String) (cs : CallSite)
    (mode : Bool) (fs : FS) :
    assert_debug_snapshot_matchesRun debugFmt name v exprText cs mode fs =
      assert_snapshot_matchesRun name (debugFmt v) exprText cs mode fs ∧
    ((assert_debug_snapshot_matchesRun debugFmt name v exprText cs mode
        fs).trace.all (writeIsExactly (debugFmt v))) = true := by
  refine ⟨rfl, ?_⟩
  have htr : (assert_debug_snapshot_matchesRun debugFmt name v exprText cs
      mode fs).trace =
      (storeRun (resolvePath (callerIdentity name cs)) (debugFmt v) mode
        exprText (callerIdentity name cs) fs).2.2 := by
    show (unwrapEngine (assert_snapshot_matchesCall name (debugFmt v)
      exprText cs mode fs)).trace = _
    rw [unwrapEngine_trace, call_trace]
  rw [htr]
  exact storeRun_trace_writes _ _ _ _ _ _

/-- C10: every assertion macro variant funnels into the expansion of
assert_snapshot_matches!, which unwraps the engine's Result
(src/src/macros.rs line 166): whenever the engine returns an error — for
example an I/O failure — the invocation ends in a panic carrying that
error at the call site, never in a returned error value (the run type has
only completed and panicked alternatives). -/
theorem macro_variants_unwrap_errors {α : Type} (capture : α → Content)
    (debugFmt : α → String) (name value exprText : String) (v : α)
    (raw : List (String × Replacement)) (cs : CallSite) (mode : Bool)
    (fs : FS) (e : IoError) :
    ((assert_snapshot_matchesCall name value exprText cs mode fs).result =
        .error e →
      (assert_snapshot_matchesRun name value exprText cs mode fs).result =
        .panicked (.ioError e)) ∧
    ((assert_snapshot_matchesCall name (serialize_value capture v .Yaml)
        exprText cs mode fs).result = .error e →
      (assert_serialized_snapshot_matchesRun capture name v exprText cs mode
        fs).result = .panicked (.ioError e)) ∧
    ((assert_snapshot_matchesCall name (serialize_value capture v .Ron)
        exprText cs mode fs).result = .error e →
      (assert_ron_snapshot_matchesRun capture name v exprText cs mode
        fs).result = .panicked (.ioError e)) ∧
    ((assert_snapshot_matchesCall name (serialize_value capture v .Json)
        exprText cs mode fs).result = .error e →
      (assert_json_snapshot_matchesRun capture name v exprText cs mode
        fs).result = .panicked (.ioError e)) ∧
    (∀ rules, parseRules raw = .ok rules →
      (assert_snapshot_matchesCall name
          (serialize_value_redacted capture v rules .Yaml) exprText cs mode
          fs).result = .error e →
      (assert_serialized_snapshot_matchesRedactedRun capture name v raw
        exprText cs mode fs).result = .panicked (.ioError e)) ∧
    ((assert_snapshot_matchesCall name (debugFmt v) exprText cs mode
        fs).result = .error e →
      (assert_debug_snapshot_matchesRun debugFmt name v exprText cs mode
        fs).result = .panicked (.ioError e)) := by
  refine ⟨?_, ?_, ?_, ?_, ?_, ?_⟩
  · intro h
    show (unwrapEngine _).result = _
    rw [unwrapEngine_error _ _ h]
  · intro h
    show (unwrapEngine _).result = _
    rw [unwrapEngine_error _ _ h]
  · intro h
    show (unwrapEngine _).result = _
    rw [unwrapEngine_error _ _ h]
  · intro h
    show (unwrapEngine _).result = _
    rw [unwrapEngine_error _ _ h]
  · intro rules hp h
    show (_assert_serialized_snapshot_matchesRedacted capture name v raw
      exprText .Yaml cs mode fs).result = _
    unfold _assert_serialized_snapshot_matchesRedacted
    rw [hp]
    show (unwrapEngine _).result = _
    rw [unwrapEngine_error _ _ h]
  · intro h
    show (unwrapEngine _).result = _
    rw [unwrapEngine_error _ _ h]

/-- Witness for C10: a broken baseline path makes the engine return an I/O
error and every macro variant panic with it. -/
theorem macro_variants_unwrap_errors_witness :
    (assert_snapshot_matchesRun "n" "v" "e" ⟨"md", "mp", "f", 1⟩ false
        ⟨[], ["md/snapshots/mp__n.snap"]⟩).result =
      .panicked (.ioError ⟨"md/snapshots/mp__n.snap", "read failure"⟩) ∧
    (assert_serialized_snapshot_matchesRun (fun _ : Unit => Content.nil) "n"
        () "e" ⟨"md", "mp", "f", 1⟩ false
        ⟨[], ["md/snapshots/mp__n.snap"]⟩).result =
      .panicked (.ioError ⟨"md/snapshots/mp__n.snap", "read failure"⟩) ∧
    (assert_ron_snapshot_matchesRun (fun _ : Unit => Content.nil) "n" () "e"
        ⟨"md", "mp", "f", 1⟩ false ⟨[], ["md/snapshots/mp__n.snap"]⟩).result =
      .panicked (.ioError ⟨"md/snapshots/mp__n.snap", "read failure"⟩) ∧
    (assert_json_snapshot_matchesRun (fun _ : Unit => Content.nil) "n" () "e"
        ⟨"md", "mp", "f", 1⟩ false ⟨[], ["md/snapshots/mp__n.snap"]⟩).result =
      .panicked (.ioError ⟨"md/snapshots/mp__n.snap", "read failure"⟩) ∧
    (assert_serialized_snapshot_matchesRedactedRun (fun _ : Unit =>
        Content.nil) "n" () [] "e" ⟨"md", "mp", "f", 1⟩ false
        ⟨[], ["md/snapshots/mp__n.snap"]⟩).result =
      .panicked (.ioError ⟨"md/snapshots/mp__n.snap", "read failure"⟩) ∧
    (assert_debug_snapshot_matchesRun (fun _ : Unit => "dbg") "n" () "e"
        ⟨"md", "mp", "f", 1⟩ false ⟨[], ["md/snapshots/mp__n.snap"]⟩).result =
      .panicked (.ioError ⟨"md/snapshots/mp__n.snap", "read failure"⟩) := by
  obtain ⟨h1, h2, h3, h4, h5, h6⟩ :=
    macro_variants_unwrap_errors (fun _ : Unit => Content.nil)
      (fun _ => "dbg") "n" "v" "e" () [] ⟨"md", "mp", "f", 1⟩ false
      ⟨[], ["md/snapshots/mp__n.snap"]⟩
      ⟨"md/snapshots/mp__n.snap", "read failure"⟩
  exact ⟨h1 rfl, h2 rfl, h3 rfl, h4 rfl, h5 [] rfl rfl, h6 rfl⟩

end Insta
